import Mathlib

/-!
Verification of the subscriptions-app Patreon synchronisation core.

This file shallowly embeds the Go source of TicketsBot-cloud/subscriptions-app:
  * `pkg/patreon/client.go` — `RefreshCredentials`, `FetchPledges`, `FetchPage`
  * `internal/server/server.go` — `UpdatePledges` and the lookup handler state
  * `cmd/app/main.go` — `fetchPledges` (one scheduler cycle)
Time is modelled in seconds as `Int`; network and database effects are modelled
as explicit oracles passed to the embedded functions.
-/

/-- The OAuth token pair held by `Client.Tokens` (patreon client). -/
structure Tokens where
  accessToken : String
  refreshToken : String
  expiresAt : Int
  deriving DecidableEq, Repr

/-- Member attributes decoded from a membership-listing page
(`fields[member]=last_charge_date,last_charge_status,patron_status,email,pledge_relationship_start`). -/
structure MemberAttributes where
  email : String
  patronStatus : String
  lastChargeStatus : String
  lastChargeDate : Int
  pledgeRelationshipStart : Int
  deriving DecidableEq, Repr

/-- One entry of the page `data` array: attributes plus the relationship data
the Go code reads (`Relationships.User.Data.Id` and the list of
`Relationships.CurrentlyEntitledTiers.Data[i].TierId`). -/
structure Member where
  attributes : MemberAttributes
  userId : Nat
  entitledTiers : List Nat
  deriving DecidableEq, Repr

/-- One entry of the page `included` array: its id and the optional
`Attributes.SocialConnections.Discord.Id`. -/
structure IncludedEntry where
  id : Nat
  discordId : Option Nat
  deriving DecidableEq, Repr

/-- A decoded membership-listing page (`PledgeResponse`): `Data`, `Included`,
and `Links.Next` collapsed to an optional next-page URL. -/
structure PledgeResponse where
  data : List Member
  included : List IncludedEntry
  next : Option String
  deriving DecidableEq, Repr

/-- The aggregated record stored per email key (`patreon.Patron`). -/
structure Patron where
  attributes : MemberAttributes
  id : Nat
  tiers : List Nat
  discordId : Option Nat
  deriving DecidableEq, Repr

/-- A Go `map` is modelled as an association list with distinct keys;
insertion overwrites in place. -/
abbrev PatronMap := List (String × Patron)

/-- Association-list lookup (`m[k]`, with `none` for a missing key). -/
def alookup {α β : Type} [DecidableEq α] : List (α × β) → α → Option β
  | [], _ => none
  | kv :: rest, k => if kv.1 = k then some kv.2 else alookup rest k

/-- Association-list insert (`m[k] = v`): overwrite the existing binding of
`k` if present, otherwise append. -/
def ainsert {α β : Type} [DecidableEq α] : List (α × β) → α → β → List (α × β)
  | [], k, v => [(k, v)]
  | kv :: rest, k, v => if kv.1 = k then (k, v) :: rest else kv :: ainsert rest k v

/-- Outcome of one HTTP GET against the membership API, as observed by
`FetchPage` after the expiry precondition: request-construction failure,
rate-limiter/context cancellation, transport failure, or a response with a
status code, whether a non-2xx body could be read, and an optional decoded
page (`none` models a JSON decode failure). -/
inductive NetResult where
  | reqError
  | cancelled
  | transportError
  | response (status : Nat) (readOk : Bool) (decoded : Option PledgeResponse)
  deriving DecidableEq, Repr

/-- The error taxonomy of `FetchPage` / `FetchPledges`. -/
inductive PatreonError where
  | tokenExpired
  | reqError
  | cancelled
  | transportError
  | bodyReadError (status : Nat)
  | statusError (status : Nat)
  | decodeError
  deriving DecidableEq, Repr

/-- A network oracle: given URL and bearer access token, the outcome of the
HTTP request the client would issue. -/
abbrev Net := String → String → NetResult

/-- `Client.FetchPage`: reject outright if the token expiry is strictly before
`now` (`c.Tokens.ExpiresAt.Before(time.Now())`), otherwise issue the request
and translate each failure mode; a 200 response is decoded into a page. -/
def fetchPage (tokens : Tokens) (now : Int) (net : Net) (url : String) :
    Except PatreonError PledgeResponse :=
  if tokens.expiresAt < now then .error .tokenExpired
  else
    match net url tokens.accessToken with
    | .reqError => .error .reqError
    | .cancelled => .error .cancelled
    | .transportError => .error .transportError
    | .response status readOk decoded =>
      if status = 200 then
        match decoded with
        | none => .error .decodeError
        | some page => .ok page
      else if readOk then .error (.statusError status)
      else .error (.bodyReadError status)

/-- The tier loop of `FetchPledges`: keep entitled tier ids found in the
configured `config.Tiers` map, collect ids missing from it as warnings
(`logger.Warn("unknown tier", ...)`), preserving order. Returns
(kept tiers, warned ids). -/
def parseTiers (cfgTiers : List (Nat × String)) : List Nat → List Nat × List Nat
  | [] => ([], [])
  | t :: rest =>
    let p := parseTiers cfgTiers rest
    if (alookup cfgTiers t).isSome then (t :: p.1, p.2) else (p.1, t :: p.2)

/-- The `included` scan of `FetchPledges`: on the first entry whose id matches
the user id of the member, take its optional Discord id and stop. -/
def findDiscordId (id : Nat) : List IncludedEntry → Option Nat
  | [] => none
  | inc :: rest => if id = inc.id then inc.discordId else findDiscordId id rest

/-- One iteration of the member loop of `FetchPledges`: skip members whose
email attribute is empty, otherwise build the `Patron` and insert it at its
email key (overwriting a duplicate email). -/
def processMember (cfgTiers : List (Nat × String)) (included : List IncludedEntry)
    (acc : PatronMap) (m : Member) : PatronMap :=
  if m.attributes.email = "" then acc
  else
    ainsert acc m.attributes.email
      { attributes := m.attributes
        id := m.userId
        tiers := (parseTiers cfgTiers m.entitledTiers).1
        discordId := findDiscordId m.userId included }

/-- Merge the `data` entries of one fetched page into the accumulating map. -/
def processPage (cfgTiers : List (Nat × String)) (acc : PatronMap)
    (page : PledgeResponse) : PatronMap :=
  page.data.foldl (processMember cfgTiers page.included) acc

/-- The pagination loop of `FetchPledges`, with explicit fuel standing for the
unbounded Go `for` loop (`none` = fuel exhausted; every theorem supplies
enough fuel). Returns the trace of URLs requested together with the outcome:
any page error aborts the loop immediately, otherwise the page is merged and
the `next` link followed until absent. -/
def fetchLoop (cfgTiers : List (Nat × String)) (tokens : Tokens) (now : Int)
    (net : Net) :
    Nat → String → PatronMap → List String × Option (Except PatreonError PatronMap)
  | 0, _, _ => ([], none)
  | fuel + 1, url, acc =>
    match fetchPage tokens now net url with
    | .error e => ([url], some (.error e))
    | .ok page =>
      let acc2 := processPage cfgTiers acc page
      match page.next with
      | none => ([url], some (.ok acc2))
      | some nextUrl =>
        let r := fetchLoop cfgTiers tokens now net fuel nextUrl acc2
        (url :: r.1, r.2)

/-- The fixed first-page URL of `FetchPledges`, parameterised by campaign id. -/
def pledgesUrl (campaignId : Int) : String :=
  "https://www.patreon.com/api/oauth2/v2/campaigns/" ++ toString campaignId ++
    "/members?include=currently_entitled_tiers,user&fields%5Bmember%5D=last_charge_date,last_charge_status,patron_status,email,pledge_relationship_start&fields%5Buser%5D=social_connections"

/-- The configuration the fetch cycle reads (`config.Tiers`,
`config.Patreon.CampaignId`). -/
structure AppConfig where
  tiers : List (Nat × String)
  campaignId : Int
  deriving DecidableEq, Repr

/-- `Client.FetchPledges`: run the pagination loop from the first-page URL with
an empty accumulator. -/
def fetchPledges (cfg : AppConfig) (tokens : Tokens) (now : Int) (net : Net)
    (fuel : Nat) : List String × Option (Except PatreonError PatronMap) :=
  fetchLoop cfg.tiers tokens now net fuel (pledgesUrl cfg.campaignId) []

/-- The decoded 2xx body of the OAuth refresh endpoint (`RefreshResponse`):
`{access_token, refresh_token, expires_in}` with `expires_in` in seconds. -/
structure RefreshResponse where
  accessToken : String
  refreshToken : String
  expiresIn : Int
  deriving DecidableEq, Repr

/-- Outcome of the refresh POST as observed by `RefreshCredentials`:
request-construction failure, rate-limiter/context cancellation, transport
failure, or a response carrying a status, whether a non-2xx body could be
read, and the optionally decoded body (`none` = decode failure). -/
inductive RefreshHttp where
  | reqError
  | cancelled
  | transportError
  | response (status : Nat) (readOk : Bool) (decoded : Option RefreshResponse)
  deriving DecidableEq, Repr

/-- The effects a refresh call can encounter: the HTTP outcome and whether the
`UPDATE patreon_keys` statement succeeds. -/
structure RefreshEnv where
  http : RefreshHttp
  dbWriteOk : Bool
  deriving DecidableEq, Repr

/-- The error taxonomy of `RefreshCredentials`. -/
inductive RefreshError where
  | reqError
  | cancelled
  | transportError
  | bodyReadError (status : Nat)
  | statusError (status : Nat)
  | decodeError
  | dbError
  deriving DecidableEq, Repr

/-- The credential state a client carries: the in-memory `Client.Tokens` and
the persisted `patreon_keys` row for this client id (`none` = row absent). -/
structure CredState where
  tokens : Tokens
  dbTokens : Option Tokens
  deriving DecidableEq, Repr

/-- `Client.RefreshCredentials`, with the Go statement order preserved: on a
200 response that decodes, the in-memory `c.Tokens` is assigned the new pair
(expiry = receipt time + `expires_in`) BEFORE the database `UPDATE` runs; a
failing `UPDATE` returns an error with the in-memory tokens already replaced.
The `UPDATE ... WHERE client_id` overwrites the row only if it exists. -/
def refreshCredentials (now : Int) (env : RefreshEnv) (st : CredState) :
    CredState × Option RefreshError :=
  match env.http with
  | .reqError => (st, some .reqError)
  | .cancelled => (st, some .cancelled)
  | .transportError => (st, some .transportError)
  | .response status readOk decoded =>
    if status = 200 then
      match decoded with
      | none => (st, some .decodeError)
      | some body =>
        let newTokens : Tokens :=
          { accessToken := body.accessToken
            refreshToken := body.refreshToken
            expiresAt := now + body.expiresIn }
        if env.dbWriteOk then
          ({ tokens := newTokens, dbTokens := st.dbTokens.map fun _ => newTokens }, none)
        else
          ({ st with tokens := newTokens }, some .dbError)
    else if readOk then (st, some (.statusError status))
    else (st, some (.bodyReadError status))

/-- The refresh-due threshold of `cmd/app/main.go`: three days in seconds. -/
def threeDays : Int := 3 * 24 * 60 * 60

/-- Outcome of one scheduler cycle (`fetchPledges` in `cmd/app/main.go`). -/
inductive CycleResult where
  | fatalExpired
  | fetchFailed (e : PatreonError)
  | fuelOut
  | published (m : PatronMap)
  deriving DecidableEq, Repr

/-- Everything one cycle produces: the credential state after the cycle, the
error of the refresh attempt if one was made and failed, the cycle outcome,
and the trace of membership-listing URLs requested. -/
structure CycleOut where
  cred : CredState
  refreshError : Option RefreshError
  result : CycleResult
  trace : List String
  deriving DecidableEq, Repr

/-- Translate a pagination-loop outcome into a cycle outcome. -/
def mkResult : Option (Except PatreonError PatronMap) → CycleResult
  | none => .fuelOut
  | some (.error e) => .fetchFailed e
  | some (.ok m) => .published m

/-- One scheduler cycle (`fetchPledges` in `cmd/app/main.go`): if the token
expiry is strictly before `now`, log fatal and stop (no listing request); else
if the token expires in under three days, attempt a refresh and continue
regardless of its success; then run the paginated fetch with the (possibly
refreshed) in-memory tokens, publishing only on success. -/
def fetchPledgesCycle (cfg : AppConfig) (now : Int) (renv : RefreshEnv)
    (net : Net) (fuel : Nat) (st : CredState) : CycleOut :=
  if st.tokens.expiresAt < now then
    { cred := st, refreshError := none, result := .fatalExpired, trace := [] }
  else
    let refreshed :=
      if st.tokens.expiresAt - now < threeDays then refreshCredentials now renv st
      else (st, none)
    let fetched := fetchPledges cfg refreshed.1.tokens now net fuel
    { cred := refreshed.1
      refreshError := refreshed.2
      result := mkResult fetched.2
      trace := fetched.1 }

/-- The shared server lookup state (`Server.pledges`,
`Server.pledgesByDiscordId`); `none` models a nil Go map (nothing published
yet). -/
structure ServerState where
  pledges : Option PatronMap
  pledgesByDiscordId : Option (List (Nat × Patron))
  deriving DecidableEq, Repr

/-- The grouping loop of `UpdatePledges`: index the published patrons by their
Discord id, skipping patrons without one (last write wins on a duplicate id). -/
def buildDiscordIndex (pledges : PatronMap) : List (Nat × Patron) :=
  pledges.foldl
    (fun x kv =>
      match kv.2.discordId with
      | some d => ainsert x d kv.2
      | none => x)
    []

/-- `Server.UpdatePledges`: replace both views together under the lock. -/
def updatePledges (pledges : PatronMap) (_s : ServerState) : ServerState :=
  { pledges := some pledges
    pledgesByDiscordId := some (buildDiscordIndex pledges) }

/-- The publish edge of `main`: a successful cycle sends the map over the
channel and the server replaces both views; any other outcome leaves the
server state untouched. -/
def serverStep (out : CycleOut) (s : ServerState) : ServerState :=
  match out.result with
  | .published m => updatePledges m s
  | _ => s

/-- A run of successive cycles applied to the server state. -/
def runServer (outs : List CycleOut) (s : ServerState) : ServerState :=
  outs.foldl (fun st o => serverStep o st) s

/-- `hasInitialData` in `handleCommand`:
`s.pledges != nil || s.pledgesByDiscordId != nil`. -/
def hasInitialData (s : ServerState) : Bool :=
  s.pledges.isSome || s.pledgesByDiscordId.isSome

/-- Outcome of a lookup command as rendered by `handleCommand`. -/
inductive LookupRes where
  | notLoaded
  | notFound
  | found (p : Patron)
  deriving DecidableEq, Repr

/-- The email branch of the `lookup` command: reply "not loaded" until some
snapshot has been published, then consult the email-keyed view (a lookup in a
nil Go map yields not-found). -/
def lookupByEmailCmd (s : ServerState) (email : String) : LookupRes :=
  if hasInitialData s then
    match s.pledges with
    | some m =>
      match alookup m email with
      | some p => .found p
      | none => .notFound
    | none => .notFound
  else .notLoaded

/-- The user branch of the `lookup` command, against the Discord-id view. -/
def lookupByDiscordIdCmd (s : ServerState) (d : Nat) : LookupRes :=
  if hasInitialData s then
    match s.pledgesByDiscordId with
    | some m =>
      match alookup m d with
      | some p => .found p
      | none => .notFound
    | none => .notFound
  else .notLoaded

/-- Tier display-name resolution in `handleCommand`: the configured name, or
the unknown-id fallback text. -/
def renderTier (cfgTiers : List (Nat × String)) (t : Nat) : String :=
  match alookup cfgTiers t with
  | some name => name
  | none => "Unknown (ID: " ++ toString t ++ ")"

/-- A finite chain of membership pages served by the network oracle `net` to
bearer token `tok`: starting at `url`, each page decodes from a 200 response,
every page but the last links to the URL of the next page via `next`, and the last
page has no `next` link. `urls` and `pages` record the chain in order. -/
inductive PageChain (net : Net) (tok : String) :
    String → List String → List PledgeResponse → Prop where
  | last (url : String) (readOk : Bool) (page : PledgeResponse)
      (hnet : net url tok = .response 200 readOk (some page))
      (hnext : page.next = none) :
      PageChain net tok url [url] [page]
  | cons (url : String) (readOk : Bool) (page : PledgeResponse)
      (nextUrl : String) (urls : List String) (pages : List PledgeResponse)
      (hnet : net url tok = .response 200 readOk (some page))
      (hnext : page.next = some nextUrl)
      (hrest : PageChain net tok nextUrl urls pages) :
      PageChain net tok url (url :: urls) (page :: pages)

/-- Concrete scenario data used by the boundary and failure analyses. -/
def exPage : PledgeResponse := ⟨[], [], none⟩

/-- Oracle that always serves the empty final page. -/
def okNet : Net := fun _ _ => .response 200 true (some exPage)

/-- Oracle that always fails at the transport layer. -/
def failNet : Net := fun _ _ => .transportError

/-- A credential whose expiry is exactly the cycle instant `0`. -/
def exCred0 : CredState := ⟨⟨"atk", "rtk", 0⟩, some ⟨"atk", "rtk", 0⟩⟩

/-- A credential expiring at time `100`. -/
def exCred100 : CredState := ⟨⟨"atk", "rtk", 100⟩, some ⟨"atk", "rtk", 100⟩⟩

/-- Refresh environment: the OAuth endpoint answers HTTP 401. -/
def refresh401 : RefreshEnv := ⟨.response 401 true none, true⟩

/-- Refresh environment: the exchange succeeds but the database write fails. -/
def refreshDbFail : RefreshEnv := ⟨.response 200 true (some ⟨"atk2", "rtk2", 500⟩), false⟩

/-- The member of the tier-mapping scenario: entitled tiers `[10, 99]`. -/
def goldMember : Member := ⟨⟨"gold@example.com", "active_patron", "Paid", 5, 1⟩, 7, [10, 99]⟩

/-- The tier-name mapping of that scenario: only `10 -> "Gold"`. -/
def goldTiers : List (Nat × String) := [(10, "Gold")]

/-- First page of a two-page chain: links to `"u2"`. -/
def chainPage1 : PledgeResponse := ⟨[], [], some "u2"⟩

/-- Final page of the two-page chain: no `next` link. -/
def chainPage2 : PledgeResponse := ⟨[], [], none⟩

/-- Oracle serving the two-page chain at `"u1"` and `"u2"`. -/
def chainNet : Net := fun u _ =>
  if u = "u1" then .response 200 true (some chainPage1)
  else .response 200 true (some chainPage2)

/-- A patron with a linked Discord account, for snapshot scenarios. -/
def exPatron : Patron := ⟨⟨"a@b.c", "active_patron", "Paid", 5, 1⟩, 7, [10], some 5⟩

/-- A one-entry email-keyed map holding `exPatron`. -/
def exPledges : PatronMap := [("a@b.c", exPatron)]

theorem alookup_ainsert {α β : Type} [DecidableEq α] (m : List (α × β)) (k k2 : α) (v : β) :
    alookup (ainsert m k v) k2 = if k = k2 then some v else alookup m k2 := by
  induction m with
  | nil => simp [ainsert, alookup]
  | cons kv rest ih =>
    by_cases h : kv.1 = k
    · by_cases hk : k = k2
      · subst hk; simp [ainsert, h, alookup]
      · simp [ainsert, alookup, h, hk]
    · by_cases h2 : kv.1 = k2
      · have hk : k ≠ k2 := fun he => h (he ▸ h2)
        simp [ainsert, alookup, h, h2, hk, Ne.symm hk]
      · simp [ainsert, alookup, h, h2, ih]

theorem alookup_of_mem_nodup {α β : Type} [DecidableEq α] (m : List (α × β))
    (hn : (m.map Prod.fst).Nodup) {k : α} {v : β} (hm : (k, v) ∈ m) :
    alookup m k = some v := by
  induction m with
  | nil => cases hm
  | cons kv rest ih =>
    rw [List.map_cons, List.nodup_cons] at hn
    rcases List.mem_cons.mp hm with h | h
    · rw [← h]; simp [alookup]
    · have hne : kv.1 ≠ k := by
        intro he
        exact hn.1 (he ▸ List.mem_map.mpr ⟨(k, v), h, rfl⟩)
      simp only [alookup, hne, if_false]
      exact ih hn.2 h

theorem mem_of_alookup {α β : Type} [DecidableEq α] (m : List (α × β)) {k : α} {v : β}
    (h : alookup m k = some v) : (k, v) ∈ m := by
  induction m with
  | nil => simp [alookup] at h
  | cons kv rest ih =>
    by_cases he : kv.1 = k
    · simp only [alookup, he, if_true, Option.some.injEq] at h
      exact List.mem_cons.mpr (Or.inl (by rw [← he, ← h]))
    · simp only [alookup, he, if_false] at h
      exact List.mem_cons.mpr (Or.inr (ih h))

theorem parseTiers_fst (cfgTiers : List (Nat × String)) (l : List Nat) :
    (parseTiers cfgTiers l).1 = l.filter (fun t => (alookup cfgTiers t).isSome) := by
  induction l with
  | nil => simp [parseTiers]
  | cons t rest ih =>
    by_cases h : (alookup cfgTiers t).isSome <;>
      simp [parseTiers, List.filter_cons, h, ih]

theorem processMember_no_empty (cfgTiers : List (Nat × String))
    (included : List IncludedEntry) (acc : PatronMap) (m : Member)
    (h : alookup acc "" = none) :
    alookup (processMember cfgTiers included acc m) "" = none := by
  by_cases he : m.attributes.email = ""
  · simpa [processMember, he] using h
  · simp [processMember, he, alookup_ainsert, Ne.symm he, h]

theorem processPage_no_empty (cfgTiers : List (Nat × String)) (page : PledgeResponse) :
    ∀ acc : PatronMap, alookup acc "" = none →
      alookup (processPage cfgTiers acc page) "" = none := by
  show ∀ acc, _ → alookup (page.data.foldl (processMember cfgTiers page.included) acc) "" = none
  induction page.data with
  | nil => intro acc h; exact h
  | cons m rest ih =>
    intro acc h
    exact ih _ (processMember_no_empty cfgTiers page.included acc m h)

theorem fetchLoop_succ_err (cfgTiers : List (Nat × String)) (tokens : Tokens)
    (now : Int) (net : Net) (f : Nat) (url : String) (acc : PatronMap)
    {e : PatreonError} (hp : fetchPage tokens now net url = .error e) :
    fetchLoop cfgTiers tokens now net (f + 1) url acc = ([url], some (.error e)) := by
  simp [fetchLoop, hp]

theorem fetchLoop_succ_last (cfgTiers : List (Nat × String)) (tokens : Tokens)
    (now : Int) (net : Net) (f : Nat) (url : String) (acc : PatronMap)
    {page : PledgeResponse} (hp : fetchPage tokens now net url = .ok page)
    (hn : page.next = none) :
    fetchLoop cfgTiers tokens now net (f + 1) url acc =
      ([url], some (.ok (processPage cfgTiers acc page))) := by
  simp [fetchLoop, hp, hn]

theorem fetchLoop_succ_cons (cfgTiers : List (Nat × String)) (tokens : Tokens)
    (now : Int) (net : Net) (f : Nat) (url : String) (acc : PatronMap)
    {page : PledgeResponse} {nextUrl : String}
    (hp : fetchPage tokens now net url = .ok page)
    (hn : page.next = some nextUrl) :
    fetchLoop cfgTiers tokens now net (f + 1) url acc =
      (url :: (fetchLoop cfgTiers tokens now net f nextUrl (processPage cfgTiers acc page)).1,
        (fetchLoop cfgTiers tokens now net f nextUrl (processPage cfgTiers acc page)).2) := by
  simp [fetchLoop, hp, hn]

theorem fetchLoop_ok_no_empty (cfgTiers : List (Nat × String)) (tokens : Tokens)
    (now : Int) (net : Net) :
    ∀ (fuel : Nat) (url : String) (acc m : PatronMap),
      alookup acc "" = none →
      (fetchLoop cfgTiers tokens now net fuel url acc).2 = some (.ok m) →
      alookup m "" = none := by
  intro fuel
  induction fuel with
  | zero => intro url acc m h hk; simp [fetchLoop] at hk
  | succ f ih =>
    intro url acc m h hk
    cases hp : fetchPage tokens now net url with
    | error e =>
      rw [fetchLoop_succ_err cfgTiers tokens now net f url acc hp] at hk
      simp at hk
    | ok page =>
      cases hn : page.next with
      | none =>
        rw [fetchLoop_succ_last cfgTiers tokens now net f url acc hp hn] at hk
        simp only [Option.some.injEq, Except.ok.injEq] at hk
        rw [← hk]
        exact processPage_no_empty cfgTiers page acc h
      | some nextUrl =>
        rw [fetchLoop_succ_cons cfgTiers tokens now net f url acc hp hn] at hk
        exact ih nextUrl _ m (processPage_no_empty cfgTiers page acc h) hk

theorem fetchLoop_error_of_mem (cfgTiers : List (Nat × String)) (tokens : Tokens)
    (now : Int) (net : Net) :
    ∀ (fuel : Nat) (url : String) (acc : PatronMap) (u : String) (e : PatreonError),
      u ∈ (fetchLoop cfgTiers tokens now net fuel url acc).1 →
      fetchPage tokens now net u = .error e →
      ∃ e2, (fetchLoop cfgTiers tokens now net fuel url acc).2 = some (.error e2) := by
  intro fuel
  induction fuel with
  | zero => intro url acc u e hu he; simp [fetchLoop] at hu
  | succ f ih =>
    intro url acc u e hu he
    cases hp : fetchPage tokens now net url with
    | error e1 =>
      exact ⟨e1, by rw [fetchLoop_succ_err cfgTiers tokens now net f url acc hp]⟩
    | ok page =>
      cases hn : page.next with
      | none =>
        rw [fetchLoop_succ_last cfgTiers tokens now net f url acc hp hn] at hu
        simp only [List.mem_singleton] at hu
        rw [hu, hp] at he
        cases he
      | some nextUrl =>
        rw [fetchLoop_succ_cons cfgTiers tokens now net f url acc hp hn] at hu ⊢
        simp only [List.mem_cons] at hu
        rcases hu with hu | hu
        · rw [hu, hp] at he; cases he
        · exact ih nextUrl _ u e hu he

theorem pageChain_head {net : Net} {tok url : String} {urls : List String}
    {pages : List PledgeResponse} (h : PageChain net tok url urls pages) :
    ∃ t, urls = url :: t := by
  cases h with
  | last url readOk page hnet hnext => exact ⟨[], rfl⟩
  | cons url readOk page nextUrl urls pages hnet hnext hrest => exact ⟨urls, rfl⟩

theorem pageChain_length {net : Net} {tok url : String} {urls : List String}
    {pages : List PledgeResponse} (h : PageChain net tok url urls pages) :
    urls.length = pages.length := by
  induction h with
  | last url readOk page hnet hnext => rfl
  | cons url readOk page nextUrl urls pages hnet hnext hrest ih => simp [ih]

theorem pageChain_det {net : Net} {tok : String} :
    ∀ {url : String} {urls1 : List String} {pages1 : List PledgeResponse},
      PageChain net tok url urls1 pages1 →
      ∀ {urls2 : List String} {pages2 : List PledgeResponse},
        PageChain net tok url urls2 pages2 → urls1 = urls2 ∧ pages1 = pages2 := by
  intro url urls1 pages1 h1
  induction h1 with
  | last url readOk page hnet hnext =>
    intro urls2 pages2 h2
    cases h2 with
    | last url readOk2 page2 hnet2 hnext2 =>
      rw [hnet] at hnet2
      injection hnet2 with _ _ h3
      injection h3 with h4
      exact ⟨rfl, by rw [h4]⟩
    | cons url readOk2 page2 nextUrl urls pages hnet2 hnext2 hrest =>
      rw [hnet] at hnet2
      injection hnet2 with _ _ h3
      injection h3 with h4
      rw [← h4, hnext] at hnext2
      cases hnext2
  | cons url readOk page nextUrl urls pages hnet hnext hrest ih =>
    intro urls2 pages2 h2
    cases h2 with
    | last url readOk2 page2 hnet2 hnext2 =>
      rw [hnet] at hnet2
      injection hnet2 with _ _ h3
      injection h3 with h4
      rw [← h4, hnext] at hnext2
      cases hnext2
    | cons url readOk2 page2 nextUrl2 urls2a pages2a hnet2 hnext2 hrest2 =>
      rw [hnet] at hnet2
      injection hnet2 with _ _ h3
      injection h3 with h4
      rw [← h4, hnext] at hnext2
      injection hnext2 with h5
      rw [← h5] at hrest2
      obtain ⟨hu, hpg⟩ := ih hrest2
      exact ⟨by rw [hu], by rw [h4, hpg]⟩

theorem pageChain_tail_lt {net : Net} {tok : String} :
    ∀ {url : String} {urls : List String} {pages : List PledgeResponse},
      PageChain net tok url urls pages →
      ∀ v ∈ urls.tail, ∃ urls2 pages2,
        PageChain net tok v urls2 pages2 ∧ urls2.length < urls.length := by
  intro url urls pages h
  induction h with
  | last url readOk page hnet hnext => intro v hv; simp at hv
  | cons url readOk page nextUrl urls pages hnet hnext hrest ih =>
    intro v hv
    simp only [List.tail_cons] at hv
    obtain ⟨t, ht⟩ := pageChain_head hrest
    by_cases hveq : v = nextUrl
    · exact ⟨urls, pages, hveq ▸ hrest, by simp⟩
    · have hv2 : v ∈ urls.tail := by
        rw [ht] at hv ⊢
        rcases List.mem_cons.mp hv with h1 | h1
        · exact absurd h1 hveq
        · simpa using h1
      obtain ⟨urls2, pages2, hc, hlen⟩ := ih v hv2
      exact ⟨urls2, pages2, hc, Nat.lt_trans hlen (by simp)⟩

theorem pageChain_count_head {net : Net} {tok url : String} {urls : List String}
    {pages : List PledgeResponse} (h : PageChain net tok url urls pages) :
    urls.count url = 1 := by
  obtain ⟨t, ht⟩ := pageChain_head h
  subst ht
  have hnotin : url ∉ t := by
    intro hmem
    obtain ⟨urls2, pages2, h2, hlen⟩ := pageChain_tail_lt h url (by simpa using hmem)
    obtain ⟨heq1, _⟩ := pageChain_det h2 h
    rw [heq1] at hlen
    exact absurd hlen (lt_irrefl _)
  simp [List.count_cons, List.count_eq_zero.mpr hnotin]

theorem fetchPage_ok_of_net (tokens : Tokens) (now : Int) (net : Net)
    {url : String} {readOk : Bool} {page : PledgeResponse}
    (hnet : net url tokens.accessToken = .response 200 readOk (some page))
    (hexp : ¬ tokens.expiresAt < now) :
    fetchPage tokens now net url = .ok page := by
  simp [fetchPage, hexp, hnet]

theorem fetchLoop_of_chain (cfgTiers : List (Nat × String)) (tokens : Tokens)
    (now : Int) (net : Net) :
    ∀ {url : String} {urls : List String} {pages : List PledgeResponse},
      PageChain net tokens.accessToken url urls pages →
      ¬ tokens.expiresAt < now →
      ∀ (fuel : Nat) (acc : PatronMap), pages.length ≤ fuel →
        fetchLoop cfgTiers tokens now net fuel url acc =
          (urls, some (.ok (pages.foldl (processPage cfgTiers) acc))) := by
  intro url urls pages h hexp
  induction h with
  | last url readOk page hnet hnext =>
    intro fuel acc hfuel
    cases fuel with
    | zero => simp at hfuel
    | succ f =>
      rw [fetchLoop_succ_last cfgTiers tokens now net f url acc
        (fetchPage_ok_of_net tokens now net hnet hexp) hnext]
      simp
  | cons url readOk page nextUrl urls pages hnet hnext hrest ih =>
    intro fuel acc hfuel
    cases fuel with
    | zero => simp at hfuel
    | succ f =>
      rw [fetchLoop_succ_cons cfgTiers tokens now net f url acc
        (fetchPage_ok_of_net tokens now net hnet hexp) hnext]
      rw [ih f (processPage cfgTiers acc page) (by simpa using hfuel)]
      simp

theorem mkResult_ne_fatalExpired (r : Option (Except PatreonError PatronMap)) :
    mkResult r ≠ .fatalExpired := by
  cases r with
  | none => simp [mkResult]
  | some x => cases x <;> simp [mkResult]

theorem bdiStep_lookup (l : PatronMap) :
    ∀ (acc : List (Nat × Patron)) (d : Nat) (p : Patron),
      alookup
        (l.foldl
          (fun x kv =>
            match kv.2.discordId with
            | some d0 => ainsert x d0 kv.2
            | none => x)
          acc) d = some p →
      alookup acc d = some p ∨ (p.discordId = some d ∧ ∃ e, (e, p) ∈ l) := by
  induction l with
  | nil => intro acc d p h; exact Or.inl h
  | cons kv rest ih =>
    intro acc d p h
    rcases ih _ d p h with h1 | ⟨h1, e, h2⟩
    · simp only [] at h1
      cases hd : kv.2.discordId with
      | none => rw [hd] at h1; exact Or.inl h1
      | some d0 =>
        rw [hd, alookup_ainsert] at h1
        by_cases hdd : d0 = d
        · rw [if_pos hdd] at h1
          injection h1 with h1
          refine Or.inr ⟨by rw [← h1, hd, hdd], kv.1, ?_⟩
          rw [← h1]
          exact List.mem_cons.mpr (Or.inl rfl)
        · rw [if_neg hdd] at h1
          exact Or.inl h1
    · exact Or.inr ⟨h1, e, List.mem_cons.mpr (Or.inr h2)⟩

theorem bdiStep_isSome (l : PatronMap) :
    ∀ (acc : List (Nat × Patron)) (d : Nat),
      ((alookup acc d).isSome ∨ ∃ e p, (e, p) ∈ l ∧ p.discordId = some d) →
      (alookup
        (l.foldl
          (fun x kv =>
            match kv.2.discordId with
            | some d0 => ainsert x d0 kv.2
            | none => x)
          acc) d).isSome := by
  induction l with
  | nil =>
    intro acc d h
    rcases h with h | ⟨e, p, hm, _⟩
    · exact h
    · cases hm
  | cons kv rest ih =>
    intro acc d h
    have hstep : ∀ acc2 : List (Nat × Patron), (alookup acc2 d).isSome →
        (alookup
          (match kv.2.discordId with
            | some d0 => ainsert acc2 d0 kv.2
            | none => acc2) d).isSome := by
      intro acc2 h2
      cases hd : kv.2.discordId with
      | none => exact h2
      | some d0 =>
        rw [alookup_ainsert]
        by_cases hdd : d0 = d
        · rw [if_pos hdd]; rfl
        · rw [if_neg hdd]; exact h2
    rcases h with h | ⟨e, p, hm, hp⟩
    · exact ih _ d (Or.inl (hstep acc h))
    · rcases List.mem_cons.mp hm with h1 | h1
      · have hkv2 : kv.2 = p := congrArg Prod.snd h1.symm
        have : (alookup
            (match kv.2.discordId with
              | some d0 => ainsert acc d0 kv.2
              | none => acc) d).isSome := by
          rw [hkv2, hp, alookup_ainsert, if_pos rfl]
          rfl
        exact ih _ d (Or.inl this)
      · exact ih _ d (Or.inr ⟨e, p, h1, hp⟩)


/-- C6: for a member with entitled tiers `[10, 99]` and the tier-name mapping
containing only `10 -> "Gold"`, the resulting patron keeps exactly tier `10`,
whose configured display name list is exactly `["Gold"]`, and the unknown id
`99` is collected for a warning log. -/
theorem gold_tier_scenario :
    parseTiers goldTiers goldMember.entitledTiers = ([10], [99]) ∧
    alookup (processMember goldTiers [] [] goldMember) "gold@example.com" =
      some ⟨goldMember.attributes, 7, [10], none⟩ ∧
    List.map (renderTier goldTiers) [10] = ["Gold"] := by
  decide

/-- C7: a member with a non-empty email whose entitled-tier list contains ids
absent from the configured mapping is still inserted into the aggregation
output; its tier list is exactly the entitled ids present in the mapping, so
unmapped ids are excluded while mapped ids are kept. -/
theorem unknown_tier_excluded_member_kept
    (cfgTiers : List (Nat × String)) (included : List IncludedEntry)
    (acc : PatronMap) (m : Member) (hne : m.attributes.email ≠ "") :
    ∃ p, alookup (processMember cfgTiers included acc m) m.attributes.email = some p ∧
      p.tiers = m.entitledTiers.filter (fun t => (alookup cfgTiers t).isSome) ∧
      (∀ t ∈ m.entitledTiers, (alookup cfgTiers t).isSome → t ∈ p.tiers) ∧
      (∀ t, alookup cfgTiers t = none → t ∉ p.tiers) := by
  refine ⟨⟨m.attributes, m.userId, (parseTiers cfgTiers m.entitledTiers).1,
    findDiscordId m.userId included⟩, ?_, parseTiers_fst cfgTiers m.entitledTiers, ?_, ?_⟩
  · simp [processMember, hne, alookup_ainsert]
  · intro t ht hsome
    rw [parseTiers_fst]
    exact List.mem_filter.mpr ⟨ht, hsome⟩
  · intro t hnone hmem
    rw [parseTiers_fst] at hmem
    have := (List.mem_filter.mp hmem).2
    rw [hnone] at this
    simp at this

theorem unknown_tier_excluded_member_kept_witness :
    ∃ p, alookup (processMember goldTiers [] [] goldMember)
        goldMember.attributes.email = some p ∧
      p.tiers = goldMember.entitledTiers.filter
        (fun t => (alookup goldTiers t).isSome) ∧
      (∀ t ∈ goldMember.entitledTiers, (alookup goldTiers t).isSome → t ∈ p.tiers) ∧
      (∀ t, alookup goldTiers t = none → t ∉ p.tiers) :=
  unknown_tier_excluded_member_kept goldTiers [] [] goldMember (by decide)

/-- C8: a member entry with an empty email attribute is never inserted into
the aggregated collection (the successful result of `FetchPledges` has no
entry at key `""`), so after publishing, a snapshot lookup at the empty email
is an ordinary not-found. -/
theorem empty_email_never_in_snapshot
    (cfg : AppConfig) (tokens : Tokens) (now : Int) (net : Net) (fuel : Nat)
    (m : PatronMap) (sst : ServerState)
    (h : (fetchPledges cfg tokens now net fuel).2 = some (.ok m)) :
    alookup m "" = none ∧
    lookupByEmailCmd (updatePledges m sst) "" = .notFound := by
  have h1 : alookup m "" = none :=
    fetchLoop_ok_no_empty cfg.tiers tokens now net fuel
      (pledgesUrl cfg.campaignId) [] m rfl h
  refine ⟨h1, ?_⟩
  simp [lookupByEmailCmd, hasInitialData, updatePledges, h1]

theorem empty_email_never_in_snapshot_witness :
    alookup ([] : PatronMap) "" = none ∧
    lookupByEmailCmd (updatePledges [] ⟨none, none⟩) "" = .notFound :=
  empty_email_never_in_snapshot ⟨[], 1⟩ ⟨"atk", "rtk", 100⟩ 0 okNet 1 [] ⟨none, none⟩ rfl

/-- C2: `UpdatePledges` publishes the email view together with the Discord-id
view derived from it: every patron reachable via the Discord-id view is the
very same record (all fields agreeing) reachable via the email view under
some email key, and the Discord-id view has an entry for `d` exactly when
some patron in the email view carries Discord id `d`. -/
theorem snapshot_discord_view_projection (pledges : PatronMap) (sst : ServerState)
    (hn : (pledges.map Prod.fst).Nodup) :
    ((updatePledges pledges sst).pledges = some pledges ∧
      (updatePledges pledges sst).pledgesByDiscordId =
        some (buildDiscordIndex pledges)) ∧
    (∀ d p, alookup (buildDiscordIndex pledges) d = some p →
      p.discordId = some d ∧ ∃ e, alookup pledges e = some p) ∧
    (∀ d, (alookup (buildDiscordIndex pledges) d).isSome ↔
      ∃ e p, alookup pledges e = some p ∧ p.discordId = some d) := by
  refine ⟨⟨rfl, rfl⟩, ?_, ?_⟩
  · intro d p h
    rw [buildDiscordIndex] at h
    rcases bdiStep_lookup pledges [] d p h with h1 | ⟨h1, e, h2⟩
    · simp [alookup] at h1
    · exact ⟨h1, e, alookup_of_mem_nodup pledges hn h2⟩
  · intro d
    constructor
    · intro h
      obtain ⟨p, hp⟩ := Option.isSome_iff_exists.mp h
      rw [buildDiscordIndex] at hp
      rcases bdiStep_lookup pledges [] d p hp with h1 | ⟨h1, e, h2⟩
      · simp [alookup] at h1
      · exact ⟨e, p, alookup_of_mem_nodup pledges hn h2, h1⟩
    · rintro ⟨e, p, h1, h2⟩
      rw [buildDiscordIndex]
      exact bdiStep_isSome pledges [] d (Or.inr ⟨e, p, mem_of_alookup pledges h1, h2⟩)

theorem snapshot_discord_view_projection_witness :
    ((updatePledges exPledges ⟨none, none⟩).pledges = some exPledges ∧
      (updatePledges exPledges ⟨none, none⟩).pledgesByDiscordId =
        some (buildDiscordIndex exPledges)) ∧
    (∀ d p, alookup (buildDiscordIndex exPledges) d = some p →
      p.discordId = some d ∧ ∃ e, alookup exPledges e = some p) ∧
    (∀ d, (alookup (buildDiscordIndex exPledges) d).isSome ↔
      ∃ e p, alookup exPledges e = some p ∧ p.discordId = some d) :=
  snapshot_discord_view_projection exPledges ⟨none, none⟩ (by decide)

/-- C10: publishing any successful aggregation result — even an empty one —
makes the data-loaded predicate of the server true; every published snapshot is
stored as a non-nil pair of views; the loaded state is preserved by every
further cycle outcome and every run of cycles; and once loaded, both lookup
commands answer found/not-found, never the not-yet-loaded response. -/
theorem has_data_monotone :
    (∀ (m : PatronMap) (sst : ServerState),
      hasInitialData (updatePledges m sst) = true) ∧
    (∀ (out : CycleOut) (m : PatronMap) (sst : ServerState),
      out.result = .published m →
      (serverStep out sst).pledges = some m ∧
      (serverStep out sst).pledgesByDiscordId = some (buildDiscordIndex m)) ∧
    (∀ (out : CycleOut) (sst : ServerState),
      hasInitialData sst = true → hasInitialData (serverStep out sst) = true) ∧
    (∀ (outs : List CycleOut) (sst : ServerState),
      hasInitialData sst = true → hasInitialData (runServer outs sst) = true) ∧
    (∀ sst : ServerState, hasInitialData sst = true →
      (∀ email, lookupByEmailCmd sst email ≠ .notLoaded) ∧
      (∀ d, lookupByDiscordIdCmd sst d ≠ .notLoaded)) := by
  have h1 : ∀ (m : PatronMap) (sst : ServerState),
      hasInitialData (updatePledges m sst) = true := by
    intro m sst; simp [hasInitialData, updatePledges]
  have h3 : ∀ (out : CycleOut) (sst : ServerState),
      hasInitialData sst = true → hasInitialData (serverStep out sst) = true := by
    intro out sst h
    cases hr : out.result with
    | published m => simp [serverStep, hr, h1]
    | fatalExpired => simpa [serverStep, hr] using h
    | fetchFailed e => simpa [serverStep, hr] using h
    | fuelOut => simpa [serverStep, hr] using h
  refine ⟨h1, ?_, h3, ?_, ?_⟩
  · intro out m sst h
    simp [serverStep, h, updatePledges]
  · intro outs
    induction outs with
    | nil => intro sst h; exact h
    | cons out rest ih =>
      intro sst h
      exact ih _ (h3 out sst h)
  · intro sst h
    constructor
    · intro email
      cases hp : sst.pledges with
      | none => simp [lookupByEmailCmd, h, hp]
      | some m =>
        cases ha : alookup m email <;> simp [lookupByEmailCmd, h, hp, ha]
    · intro d
      cases hp : sst.pledgesByDiscordId with
      | none => simp [lookupByDiscordIdCmd, h, hp]
      | some m =>
        cases ha : alookup m d <;> simp [lookupByDiscordIdCmd, h, hp, ha]

theorem has_data_monotone_witness :
    hasInitialData
      (runServer [⟨exCred0, none, .fetchFailed .transportError, []⟩]
        (updatePledges [] ⟨none, none⟩)) = true ∧
    lookupByEmailCmd (updatePledges [] ⟨none, none⟩) "x" ≠ .notLoaded :=
  ⟨has_data_monotone.2.2.2.1 [⟨exCred0, none, .fetchFailed .transportError, []⟩]
      (updatePledges [] ⟨none, none⟩) (has_data_monotone.1 [] ⟨none, none⟩),
    (has_data_monotone.2.2.2.2 (updatePledges [] ⟨none, none⟩)
      (has_data_monotone.1 [] ⟨none, none⟩)).1 "x"⟩

/-- C9: for a finite chain of pages in which each page links to the next and
only the final page lacks a `next` link, the pagination loop requests exactly
the URLs of the chain in order — one fetch per page, the first page exactly once —
and terminates with the merge of all pages. -/
theorem pagination_exact_fetches
    (cfgTiers : List (Nat × String)) (tokens : Tokens) (now : Int) (net : Net)
    (fuel : Nat) (url : String) (urls : List String)
    (pages : List PledgeResponse) (acc : PatronMap)
    (hchain : PageChain net tokens.accessToken url urls pages)
    (hexp : ¬ tokens.expiresAt < now) (hfuel : pages.length ≤ fuel) :
    fetchLoop cfgTiers tokens now net fuel url acc =
      (urls, some (.ok (pages.foldl (processPage cfgTiers) acc))) ∧
    urls.length = pages.length ∧
    urls.count url = 1 :=
  ⟨fetchLoop_of_chain cfgTiers tokens now net hchain hexp fuel acc hfuel,
    pageChain_length hchain, pageChain_count_head hchain⟩

theorem pagination_exact_fetches_witness :
    fetchLoop [] ⟨"atk", "rtk", 100⟩ 0 chainNet 2 "u1" [] =
      (["u1", "u2"],
        some (.ok ([chainPage1, chainPage2].foldl (processPage []) []))) ∧
    (["u1", "u2"] : List String).length = ([chainPage1, chainPage2] : List PledgeResponse).length ∧
    (["u1", "u2"] : List String).count "u1" = 1 :=
  pagination_exact_fetches [] ⟨"atk", "rtk", 100⟩ 0 chainNet 2 "u1"
    ["u1", "u2"] [chainPage1, chainPage2] []
    (PageChain.cons "u1" true chainPage1 "u2" ["u2"] [chainPage2]
      (by decide) (by decide)
      (PageChain.last "u2" true chainPage2 (by decide) (by decide)))
    (by decide) (by decide)

/-- C1: if any page fetch the cycle actually performs fails (transport,
non-2xx, decode, cancellation, or the token-expiry precondition), the whole
aggregation returns an error and the cycle publishes nothing: the previously
published snapshot, both the email-keyed and discord-id-keyed views, is left
exactly as it was. -/
theorem fetch_error_aborts_and_preserves_snapshot
    (cfg : AppConfig) (now : Int) (renv : RefreshEnv) (net : Net) (fuel : Nat)
    (st : CredState) (sst : ServerState) (u : String) (e : PatreonError)
    (hu : u ∈ (fetchPledgesCycle cfg now renv net fuel st).trace)
    (he : fetchPage (fetchPledgesCycle cfg now renv net fuel st).cred.tokens
      now net u = .error e) :
    (∃ e2, (fetchPledgesCycle cfg now renv net fuel st).result = .fetchFailed e2) ∧
    serverStep (fetchPledgesCycle cfg now renv net fuel st) sst = sst := by
  by_cases hfat : st.tokens.expiresAt < now
  · have htr : (fetchPledgesCycle cfg now renv net fuel st).trace = [] := by
      simp [fetchPledgesCycle, hfat]
    rw [htr] at hu
    cases hu
  · have hout : fetchPledgesCycle cfg now renv net fuel st =
        { cred := (if st.tokens.expiresAt - now < threeDays
            then refreshCredentials now renv st else (st, none)).1
          refreshError := (if st.tokens.expiresAt - now < threeDays
            then refreshCredentials now renv st else (st, none)).2
          result := mkResult (fetchPledges cfg
            (if st.tokens.expiresAt - now < threeDays
              then refreshCredentials now renv st else (st, none)).1.tokens
            now net fuel).2
          trace := (fetchPledges cfg
            (if st.tokens.expiresAt - now < threeDays
              then refreshCredentials now renv st else (st, none)).1.tokens
            now net fuel).1 } := by
      simp [fetchPledgesCycle, hfat]
    rw [hout] at hu he ⊢
    dsimp only at hu he ⊢
    obtain ⟨e2, h2⟩ := fetchLoop_error_of_mem cfg.tiers
      (if st.tokens.expiresAt - now < threeDays
        then refreshCredentials now renv st else (st, none)).1.tokens
      now net fuel (pledgesUrl cfg.campaignId) [] u e hu he
    have hres : mkResult (fetchPledges cfg
        (if st.tokens.expiresAt - now < threeDays
          then refreshCredentials now renv st else (st, none)).1.tokens
        now net fuel).2 = .fetchFailed e2 := by
      show mkResult (fetchLoop cfg.tiers _ now net fuel (pledgesUrl cfg.campaignId) []).2 = _
      rw [h2]
      rfl
    exact ⟨⟨e2, hres⟩, by simp [serverStep, hres]⟩

theorem fetch_error_aborts_and_preserves_snapshot_witness :
    (∃ e2, (fetchPledgesCycle ⟨[], 1⟩ 0 refresh401 failNet 1 exCred100).result =
      .fetchFailed e2) ∧
    serverStep (fetchPledgesCycle ⟨[], 1⟩ 0 refresh401 failNet 1 exCred100)
      (updatePledges exPledges ⟨none, none⟩) =
      updatePledges exPledges ⟨none, none⟩ :=
  fetch_error_aborts_and_preserves_snapshot ⟨[], 1⟩ 0 refresh401 failNet 1
    exCred100 (updatePledges exPledges ⟨none, none⟩) (pledgesUrl 1)
    .transportError (List.mem_singleton.mpr rfl) rfl

/-- C3 counterexample: the claim reads the precondition as `now >= expiresAt`,
but the code uses the strict Go test `ExpiresAt.Before(now)`. At the boundary
`now = expiresAt` (both `0` here) the claim demands a fatal stop with zero
listing requests, yet the cycle is not fatal, one listing request is made,
and `FetchPage` does consult the network (its result depends on the oracle). -/
theorem expiry_boundary_counterexample :
    exCred0.tokens.expiresAt ≤ (0 : Int) ∧
    (fetchPledgesCycle ⟨[], 1⟩ 0 refresh401 okNet 1 exCred0).result ≠ .fatalExpired ∧
    (fetchPledgesCycle ⟨[], 1⟩ 0 refresh401 okNet 1 exCred0).trace ≠ [] ∧
    fetchPage exCred0.tokens 0 okNet "u" ≠ fetchPage exCred0.tokens 0 failNet "u" := by
  refine ⟨by decide, ?_, ?_, ?_⟩
  · have h : (fetchPledgesCycle ⟨[], 1⟩ 0 refresh401 okNet 1 exCred0).result =
        .published [] := rfl
    rw [h]
    intro hc
    cases hc
  · have h : (fetchPledgesCycle ⟨[], 1⟩ 0 refresh401 okNet 1 exCred0).trace =
        [pledgesUrl 1] := rfl
    rw [h]
    intro hc
    cases hc
  · have h1 : fetchPage exCred0.tokens 0 okNet "u" = .ok exPage := rfl
    have h2 : fetchPage exCred0.tokens 0 failNet "u" = .error .transportError := rfl
    rw [h1, h2]
    intro hc
    cases hc

/-- C3 amended: with the strict condition of the code — the expiry is strictly
before `now` — the cycle stops fatally with an unchanged credential and an
empty request trace, and a page fetch on a strictly-expired token is rejected
with the expiry error without consulting the network (its result is the same
for every network oracle). -/
theorem expiry_strict_precondition
    (cfg : AppConfig) (now : Int) (renv : RefreshEnv) (net : Net) (fuel : Nat)
    (st : CredState) (tokens : Tokens) (url : String) (net2 : Net) :
    (st.tokens.expiresAt < now →
      fetchPledgesCycle cfg now renv net fuel st =
        { cred := st, refreshError := none, result := .fatalExpired, trace := [] }) ∧
    (tokens.expiresAt < now →
      fetchPage tokens now net url = .error .tokenExpired ∧
      fetchPage tokens now net url = fetchPage tokens now net2 url) := by
  constructor
  · intro h
    simp [fetchPledgesCycle, h]
  · intro h
    constructor
    · simp [fetchPage, h]
    · simp [fetchPage, h]

theorem expiry_strict_precondition_witness :
    fetchPledgesCycle ⟨[], 1⟩ 0 refresh401 okNet 1 ⟨⟨"a", "r", -1⟩, none⟩ =
      { cred := ⟨⟨"a", "r", -1⟩, none⟩, refreshError := none,
        result := .fatalExpired, trace := [] } ∧
    (fetchPage ⟨"a", "r", -1⟩ 0 okNet "u" = .error .tokenExpired ∧
      fetchPage ⟨"a", "r", -1⟩ 0 okNet "u" = fetchPage ⟨"a", "r", -1⟩ 0 failNet "u") :=
  ⟨(expiry_strict_precondition ⟨[], 1⟩ 0 refresh401 okNet 1 ⟨⟨"a", "r", -1⟩, none⟩
      ⟨"a", "r", -1⟩ "u" failNet).1 (by decide),
    (expiry_strict_precondition ⟨[], 1⟩ 0 refresh401 okNet 1 ⟨⟨"a", "r", -1⟩, none⟩
      ⟨"a", "r", -1⟩ "u" failNet).2 (by decide)⟩

/-- C4 counterexample: when the upstream exchange succeeds but the database
write fails, `RefreshCredentials` returns the persistence failure with the
persisted record unchanged — but the in-memory token pair has already been
replaced, contradicting the claim that the credential is left unchanged on
any failure. -/
theorem refresh_db_failure_mutates_memory :
    (refreshCredentials 0 refreshDbFail exCred100).2 = some .dbError ∧
    (refreshCredentials 0 refreshDbFail exCred100).1.dbTokens = exCred100.dbTokens ∧
    (refreshCredentials 0 refreshDbFail exCred100).1.tokens ≠ exCred100.tokens := by
  refine ⟨rfl, rfl, ?_⟩
  decide

/-- C4 amended: `RefreshCredentials` never changes the persisted record on any
failure; on every failure other than the persistence failure both the
in-memory pair and the persisted record are unchanged; on a persistence
failure a typed failure is returned and the persisted record is unchanged,
but the in-memory pair has already been set to the newly obtained tokens;
and only a fully successful refresh updates the persisted record. -/
theorem refresh_mutation_characterization (now : Int) (renv : RefreshEnv)
    (st : CredState) :
    ((refreshCredentials now renv st).2.isSome →
      (refreshCredentials now renv st).1.dbTokens = st.dbTokens) ∧
    (∀ e, (refreshCredentials now renv st).2 = some e → e ≠ .dbError →
      (refreshCredentials now renv st).1 = st) ∧
    ((refreshCredentials now renv st).2 = some .dbError →
      renv.dbWriteOk = false ∧
      ∃ readOk body, renv.http = .response 200 readOk (some body) ∧
        (refreshCredentials now renv st).1.tokens =
          ⟨body.accessToken, body.refreshToken, now + body.expiresIn⟩ ∧
        (refreshCredentials now renv st).1.dbTokens = st.dbTokens) ∧
    ((refreshCredentials now renv st).2 = none →
      ∃ readOk body, renv.http = .response 200 readOk (some body) ∧
        (refreshCredentials now renv st).1.tokens =
          ⟨body.accessToken, body.refreshToken, now + body.expiresIn⟩ ∧
        (refreshCredentials now renv st).1.dbTokens = st.dbTokens.map
          (fun _ => ⟨body.accessToken, body.refreshToken, now + body.expiresIn⟩)) := by
  obtain ⟨http, dbOk⟩ := renv
  cases http with
  | reqError =>
    refine ⟨fun _ => rfl, fun e he _ => rfl, fun h => ?_, fun h => ?_⟩ <;>
      simp [refreshCredentials] at h
  | cancelled =>
    refine ⟨fun _ => rfl, fun e he _ => rfl, fun h => ?_, fun h => ?_⟩ <;>
      simp [refreshCredentials] at h
  | transportError =>
    refine ⟨fun _ => rfl, fun e he _ => rfl, fun h => ?_, fun h => ?_⟩ <;>
      simp [refreshCredentials] at h
  | response status readOk decoded =>
    by_cases hs : status = 200
    · subst hs
      cases decoded with
      | none =>
        refine ⟨fun _ => rfl, fun e he _ => rfl, fun h => ?_, fun h => ?_⟩ <;>
          simp [refreshCredentials] at h
      | some body =>
        cases dbOk with
        | false =>
          refine ⟨fun _ => rfl, fun e he hne => ?_, fun _ => ?_, fun h => ?_⟩
          · have h2 : (refreshCredentials now ⟨.response 200 readOk (some body), false⟩
                st).2 = some .dbError := rfl
            rw [h2] at he
            injection he with h3
            exact absurd h3.symm hne
          · exact ⟨rfl, readOk, body, rfl, rfl, rfl⟩
          · simp [refreshCredentials] at h
        | true =>
          refine ⟨fun h => ?_, fun e he _ => ?_, fun h => ?_, fun _ => ?_⟩
          · simp [refreshCredentials] at h
          · simp [refreshCredentials] at he
          · simp [refreshCredentials] at h
          · exact ⟨readOk, body, rfl, rfl, rfl⟩
    · cases readOk with
      | true =>
        have heq : refreshCredentials now ⟨.response status true decoded, dbOk⟩ st =
            (st, some (.statusError status)) := by
          simp [refreshCredentials, hs]
        rw [heq]
        simp
      | false =>
        have heq : refreshCredentials now ⟨.response status false decoded, dbOk⟩ st =
            (st, some (.bodyReadError status)) := by
          simp [refreshCredentials, hs]
        rw [heq]
        simp

theorem refresh_mutation_characterization_witness :
    (refreshCredentials 0 refreshDbFail exCred100).1.dbTokens = exCred100.dbTokens ∧
    (refreshDbFail.dbWriteOk = false ∧
      ∃ readOk body, refreshDbFail.http = .response 200 readOk (some body) ∧
        (refreshCredentials 0 refreshDbFail exCred100).1.tokens =
          ⟨body.accessToken, body.refreshToken, 0 + body.expiresIn⟩ ∧
        (refreshCredentials 0 refreshDbFail exCred100).1.dbTokens =
          exCred100.dbTokens) :=
  ⟨(refresh_mutation_characterization 0 refreshDbFail exCred100).1 (by decide),
    (refresh_mutation_characterization 0 refreshDbFail exCred100).2.2.1 rfl⟩

/-- C5: a refresh attempt answered with a non-2xx status (for example 401)
does not abort the cycle: the refresh is reported as the corresponding typed
failure, the credential — in-memory and persisted — is unchanged, and the
aggregation proceeds with the prior access token, its trace and result being
exactly those of the paginated fetch under the prior tokens; the cycle only
stops fatally when the prior token was already strictly past expiry, in which
case no fetch happens. -/
theorem failed_refresh_does_not_abort_cycle
    (cfg : AppConfig) (now : Int) (renv : RefreshEnv) (net : Net) (fuel : Nat)
    (st : CredState) (s : Nat) (readOk : Bool) (decoded : Option RefreshResponse)
    (hhttp : renv.http = .response s readOk decoded) (hs : s ≠ 200)
    (hdue : st.tokens.expiresAt - now < threeDays) :
    (¬ st.tokens.expiresAt < now →
      (fetchPledgesCycle cfg now renv net fuel st).cred = st ∧
      (fetchPledgesCycle cfg now renv net fuel st).refreshError =
        some (if readOk then .statusError s else .bodyReadError s) ∧
      (fetchPledgesCycle cfg now renv net fuel st).trace =
        (fetchPledges cfg st.tokens now net fuel).1 ∧
      (fetchPledgesCycle cfg now renv net fuel st).result =
        mkResult (fetchPledges cfg st.tokens now net fuel).2 ∧
      (fetchPledgesCycle cfg now renv net fuel st).result ≠ .fatalExpired) ∧
    (st.tokens.expiresAt < now →
      (fetchPledgesCycle cfg now renv net fuel st).result = .fatalExpired ∧
      (fetchPledgesCycle cfg now renv net fuel st).trace = []) := by
  have href : refreshCredentials now renv st =
      (st, some (if readOk then .statusError s else .bodyReadError s)) := by
    cases readOk <;> simp [refreshCredentials, hhttp, hs]
  constructor
  · intro hexp
    have hcy : fetchPledgesCycle cfg now renv net fuel st =
        { cred := st
          refreshError := some (if readOk then .statusError s else .bodyReadError s)
          result := mkResult (fetchPledges cfg st.tokens now net fuel).2
          trace := (fetchPledges cfg st.tokens now net fuel).1 } := by
      simp [fetchPledgesCycle, hexp, hdue, href]
    rw [hcy]
    exact ⟨rfl, rfl, rfl, rfl, mkResult_ne_fatalExpired _⟩
  · intro hexp
    constructor <;> simp [fetchPledgesCycle, hexp]

theorem failed_refresh_does_not_abort_cycle_witness :
    (fetchPledgesCycle ⟨[], 1⟩ 0 refresh401 okNet 1 exCred100).cred = exCred100 ∧
    (fetchPledgesCycle ⟨[], 1⟩ 0 refresh401 okNet 1 exCred100).refreshError =
      some (if true then .statusError 401 else .bodyReadError 401) ∧
    (fetchPledgesCycle ⟨[], 1⟩ 0 refresh401 okNet 1 exCred100).trace =
      (fetchPledges ⟨[], 1⟩ exCred100.tokens 0 okNet 1).1 ∧
    (fetchPledgesCycle ⟨[], 1⟩ 0 refresh401 okNet 1 exCred100).result =
      mkResult (fetchPledges ⟨[], 1⟩ exCred100.tokens 0 okNet 1).2 ∧
    (fetchPledgesCycle ⟨[], 1⟩ 0 refresh401 okNet 1 exCred100).result ≠ .fatalExpired :=
  (failed_refresh_does_not_abort_cycle ⟨[], 1⟩ 0 refresh401 okNet 1 exCred100
    401 true none rfl (by decide) (by decide)).1 (by decide)
